import Mathlib

/-!
Verification of the `django-nl-filter` repository (`nlf/converter.py`).

The repository has two functions:

* `get_models_schema` — walks a list of Django model classes and their
  relations, producing a flattened textual schema (one "Model: <name>"
  header per model, one line per field, a blank separator line after each
  model), with a `visited_models` set guarding against relation cycles.
* `nl_to_orm` — builds a system prompt embedding the schema, calls the
  external `ollama.chat` endpoint, strips Markdown fences from the reply,
  and optionally validates the result with `ast.parse`, raising
  `ValueError` on a syntax error.

Embedding conventions:

* A Django model class is embedded as a `ModelDef` (name + ordered field
  list).  Python identifies models by class object; here the class name
  plays that role, so a relation field stores the *name* of its target
  model and targets are resolved in a registry `env : List ModelDef`
  (the set of model classes defined in the host application).  The
  recursion of `add_model_schema` is bounded by a fuel parameter; the top
  level supplies `env.length + 1`, which exceeds the depth of any chain of
  distinct not-yet-visited models, so the fuel-exhaustion branch (which
  returns the state unchanged) is never taken on well-formed registries.
* The external `ollama.chat` call is a function parameter `chat`; the
  external `ast.parse` is a function parameter `ast_parse` returning
  `some errorMessage` on a syntax error and `none` on success.  The
  decoding options (`temperature`, `num_predict`) are opaque pass-through
  values of arbitrary types.
* Python string operations (`strip`, `startswith`, `split`, `strip("\x60")`)
  are re-implemented on `List Char` below with Python's semantics.
-/

namespace NlFilter

/-- A field of a Django model, as classified by `add_model_schema`:
`isinstance(field, GenericForeignKey)` first, then
`hasattr(field, 'related_model') and field.related_model`, else a plain
field carrying `field.get_internal_type()`. -/
inductive FieldInfo where
  | genericFK (name : String)
  | relation (name : String) (target : String)
  | plain (name : String) (internalType : String)
deriving DecidableEq, Repr

/-- A Django model class: `__name__` plus `_meta.get_fields(include_hidden=True)`
in declaration order.  The name plays the role of Python class identity. -/
structure ModelDef where
  name : String
  fields : List FieldInfo
deriving DecidableEq, Repr

/-- The mutable state of `get_models_schema`: the `schema_parts` list and the
`visited_models` set (kept as the list of visited model names). -/
structure SchemaState where
  parts : List String
  visited : List String
deriving DecidableEq, Repr

/-- Line emitted for a `GenericForeignKey` field (converter.py line 22). -/
def generic_fk_line (n : String) : String :=
  "  - " ++ n ++ ": GenericForeignKey (references any model via ContentType, use "
    ++ n ++ "__field_name for filtering)"

/-- Line emitted for a concrete relation field (converter.py line 24). -/
def relation_line (n target : String) : String :=
  "  - " ++ n ++ ": ForeignKey to " ++ target ++ " (access via " ++ n ++ "__field_name)"

/-- Line emitted for a plain field (converter.py line 27). -/
def plain_line (n t : String) : String :=
  "  - " ++ n ++ ": " ++ t

/-- Resolution of a Python class reference `field.related_model` in the
registry of model classes. -/
def findModel (env : List ModelDef) (target : String) : Option ModelDef :=
  env.find? (fun m => m.name == target)

/-- One iteration of the `for field in model._meta.get_fields(...)` loop of
`add_model_schema`; `rec` is the recursive call `add_model_schema` used for
`field.related_model` (converter.py lines 20-27). -/
def field_step (env : List ModelDef) (rec : ModelDef → SchemaState → SchemaState)
    (st : SchemaState) (f : FieldInfo) : SchemaState :=
  match f with
  | FieldInfo.genericFK n => ⟨st.parts ++ [generic_fk_line n], st.visited⟩
  | FieldInfo.relation n target =>
    let st1 : SchemaState := ⟨st.parts ++ [relation_line n target], st.visited⟩
    match findModel env target with
    | some m2 => rec m2 st1
    | none => st1
  | FieldInfo.plain n t => ⟨st.parts ++ [plain_line n t], st.visited⟩

/-- `add_model_schema` (converter.py lines 15-28): return unchanged if the
model was already visited, otherwise mark it visited, emit the header, emit
one line per field (recursing into concrete relation targets), and emit a
blank separator line.  `fuel` bounds the recursion depth; each nesting level
expands a model not previously visited, so `env.length + 1` fuel is never
exhausted (every expanded model beyond the first comes from `env`). -/
def add_model_schema (env : List ModelDef) : Nat → ModelDef → SchemaState → SchemaState
  | 0, _, st => st
  | fuel + 1, model, st =>
    if model.name ∈ st.visited then st
    else
      let st1 : SchemaState :=
        ⟨st.parts ++ ["Model: " ++ model.name], st.visited ++ [model.name]⟩
      let st2 := model.fields.foldl (field_step env (add_model_schema env fuel)) st1
      ⟨st2.parts ++ [""], st2.visited⟩

/-- The `schema_parts` list built by `get_models_schema` (converter.py
lines 12-31): fold `add_model_schema` over the input list starting from an
empty parts list and an empty visited set. -/
def get_models_schema_parts (env : List ModelDef) (models_list : List ModelDef) : List String :=
  (models_list.foldl (fun st m => add_model_schema env (env.length + 1) m st)
    ⟨[], []⟩).parts

/-- `get_models_schema` (converter.py line 32): `"\n".join(schema_parts)`. -/
def get_models_schema (env : List ModelDef) (models_list : List ModelDef) : String :=
  String.intercalate "\n" (get_models_schema_parts env models_list)

/-- Number of occurrences of the header line `"Model: " ++ n` in a parts
list. -/
def modelLineCount (parts : List String) (n : String) : Nat :=
  (parts.filter (fun l => l == "Model: " ++ n)).length

/-! ### Python string primitives used by `nl_to_orm` -/

/-- The (ASCII) whitespace characters removed by Python's `str.strip()`. -/
def isPyWhitespace (c : Char) : Bool :=
  c == ' ' || c == '\t' || c == '\n' || c == '\r' || c == '\x0b' || c == '\x0c'

/-- Remove every leading and trailing character satisfying `p`
(Python `str.strip(chars)`). -/
def stripChars (p : Char → Bool) (s : String) : String :=
  ⟨((s.data.dropWhile p).reverse.dropWhile p).reverse⟩

/-- Python `str.strip()` (no argument): strip whitespace from both ends. -/
def pyStrip (s : String) : String :=
  stripChars isPyWhitespace s

/-- Python `str.startswith(p)`. -/
def pyStartswith (s p : String) : Bool :=
  p.data.isPrefixOf s.data

/-- Worker for Python `str.split(sep)` with a non-empty separator: scan
left to right, cutting at each (non-overlapping, leftmost) occurrence of
the separator.  `acc` holds the current chunk reversed; `skip` counts
separator characters still to be consumed after a cut (so the recursion is
structural in the scanned list and kernel-reducible). -/
def pySplitGo (sep : List Char) : Nat → List Char → List Char → List (List Char)
  | _, acc, [] => [acc.reverse]
  | skip + 1, acc, _ :: rest => pySplitGo sep skip acc rest
  | 0, acc, c :: rest =>
    if sep.isPrefixOf (c :: rest) then
      acc.reverse :: pySplitGo sep (sep.length - 1) [] rest
    else
      pySplitGo sep 0 (c :: acc) rest

/-- Python `str.split(sep)` for a non-empty separator.  (Python raises
`ValueError` on an empty separator; `converter.py` only uses the literal
separators `"\x60\x60\x60python"` and `"\x60\x60\x60"`.) -/
def pySplit (sep s : String) : List String :=
  match sep.data with
  | [] => [s]
  | _ :: _ => (pySplitGo sep.data 0 [] s.data).map (fun l => ⟨l⟩)

/-- Whether `sub` occurs as a contiguous substring of `s`. -/
def strContains (s sub : String) : Bool :=
  (pySplit sub s).length != 1 || sub == ""

/-- Worker for Python `str.format` restricted to the three replacement
fields used by `nl_to_orm` (`schema`, `nl_query`, `start_model`); any other
field name is left in place (Python would raise `KeyError` there, and
`ValueError` on an unmatched brace — neither is exercised by the claims). -/
def pyFormatAux (schema nlq start : List Char) : List Char → List Char
  | [] => []
  | c :: rest =>
    if c = '\x7b' then
      let fieldName := rest.takeWhile (fun d => d != '\x7d')
      let repl :=
        if fieldName = "schema".data then schema
        else if fieldName = "nl_query".data then nlq
        else if fieldName = "start_model".data then start
        else '\x7b' :: (fieldName ++ ['\x7d'])
      repl ++ pyFormatAux schema nlq start (rest.drop (fieldName.length + 1))
    else
      c :: pyFormatAux schema nlq start rest
termination_by l => l.length
decreasing_by
  · simp [List.length_drop]; omega
  · simp

/-- `custom_system_prompt.format(schema=..., nl_query=..., start_model=...)`
(converter.py line 84). -/
def pyFormat (template schema nlq start : String) : String :=
  ⟨pyFormatAux schema.data nlq.data start.data template.data⟩

/-! ### `nl_to_orm` -/

/-- Reply post-processing (converter.py lines 118-122):
`generated_query = response['message']['content'].strip()`, then strip a
leading `"\x60\x60\x60python"` fence (taking the text up to the closing
`"\x60\x60\x60"`), else strip surrounding backticks. -/
def extract_generated (content : String) : String :=
  let generated_query := pyStrip content
  if pyStartswith generated_query "```python" then
    pyStrip (((pySplit "```" ((pySplit "```python" generated_query).getD 1 ""))).getD 0 "")
  else if pyStartswith generated_query "`" then
    pyStrip (stripChars (fun c => c == '\x60') generated_query)
  else
    generated_query

/-- The default system prompt of `nl_to_orm` (converter.py lines 86-104),
an f-string over `schema` and `start_model`.  (`\x27` is an apostrophe,
`\x60` a backtick.) -/
def default_system_prompt (schema start_model : String) : String :=
  "You are an expert in Django ORM queries.\nGiven this schema (with relations):\n\n"
  ++ schema
  ++ "\n\nConvert the natural language to a valid Django ORM query string.\n- Start with "
  ++ start_model
  ++ ".objects\n- Use ALL QuerySet methods as needed: filter/exclude/get/all/order_by/distinct/values/values_list/only/defer/update/delete\n- Advanced lookups: __gt/__lte/__in/__range/__contains/__startswith/__year\n- Complex logic: Import Q (e.g., Q(field__gt=100) & ~Q(other=False))\n- Field ops: Import F (e.g., filter(score__gt=F(\x27attempts\x27)))\n- Subqueries: Import Subquery/Exists/OuterRef/When/Case\n- Aggregates: Import Avg/Sum/Max/Min/Count; use annotate/aggregate\n- Relations: Joins via __, select_related/prefetch_related\n- Other: dates/date_trunc, Func, raw SQL (last resort)\n- Mutations: Use .update/.delete if implied\n- Imports: Prefix with \x27from django.db.models import ...\x27 for Q/F/Subquery/Avg/etc.\n- For GenericForeignKey: Use content_type and object_id fields for filtering (e.g., filter(content_type__model=\x27modelname\x27, object_id__in=[...]))\n- Output ONLY the Python code string, executable as-is."

/-- System-prompt selection (converter.py lines 83-104).  Python's
`if custom_system_prompt:` is a truthiness test, so both `None` and the
empty string select the default prompt. -/
def build_system_prompt (custom_system_prompt : Option String)
    (schema nl_query start_model : String) : String :=
  match custom_system_prompt with
  | some t =>
    if t == "" then default_system_prompt schema start_model
    else pyFormat t schema nl_query start_model
  | none => default_system_prompt schema start_model

/-- The `models` argument of `nl_to_orm`: a single model class or a list of
model classes (`Union[Type[models.Model], List[Type[models.Model]]]`). -/
inductive ModelsArg where
  | single (m : ModelDef)
  | many (l : List ModelDef)
deriving DecidableEq, Repr

/-- `if not isinstance(models, list): models = [models]`
(converter.py lines 77-78). -/
def normalizeModels : ModelsArg → List ModelDef
  | ModelsArg.single m => [m]
  | ModelsArg.many l => l

/-- `nl_to_orm` (converter.py lines 34-130).  `chat` abstracts the external
`ollama.chat` endpoint: it receives the model identifier, the role-tagged
messages, and the two decoding options, and returns
`response['message']['content']`; `ast_parse` abstracts `ast.parse`,
returning `some e` when it raises `SyntaxError e` and `none` on success.
`Temp` and `MaxTok` are the opaque types of the pass-through decoding
options.  The `Except.error` results are Python exceptions: the
`IndexError` raised by `models[0]` on an empty list, and the `ValueError`
raised on failed validation (converter.py line 128). -/
def nl_to_orm {Temp MaxTok : Type}
    (chat : String → List (String × String) → Temp → MaxTok → String)
    (ast_parse : String → Option String)
    (env : List ModelDef)
    (models : ModelsArg) (nl_query : String) (ollama_model : String)
    (custom_system_prompt : Option String) (temperature : Temp)
    (max_tokens : MaxTok) (validate_code : Bool) : Except String String :=
  let models_list := normalizeModels models
  let schema := get_models_schema env models_list
  match models_list with
  | [] => Except.error "IndexError: list index out of range"
  | m0 :: _ =>
    let start_model := m0.name
    let system_prompt := build_system_prompt custom_system_prompt schema nl_query start_model
    let content := chat ollama_model
      [("system", system_prompt), ("user", nl_query)] temperature max_tokens
    let generated_query := extract_generated content
    if validate_code then
      match ast_parse generated_query with
      | some e =>
        Except.error ("Invalid query syntax: " ++ e ++ "\nQuery: " ++ generated_query)
      | none => Except.ok generated_query
    else
      Except.ok generated_query

/-! ### Basic string lemmas -/

theorem string_mk_data (s : String) : (⟨s.data⟩ : String) = s := by
  cases s; rfl

theorem string_data_inj {s t : String} (h : s.data = t.data) : s = t := by
  cases s; cases t; exact congrArg String.mk h

theorem model_line_inj {a b : String} (h : "Model: " ++ a = "Model: " ++ b) : a = b := by
  have hd := congrArg String.data h
  rw [String.data_append, String.data_append] at hd
  exact string_data_inj (List.append_cancel_left hd)

theorem generic_fk_line_ne_model (a n : String) : generic_fk_line a ≠ "Model: " ++ n := by
  intro h
  have hd := congrArg String.data h
  simp only [generic_fk_line, String.data_append,
    show ("  - " : String).data = [' ', ' ', '-', ' '] from rfl,
    show ("Model: " : String).data = ['M', 'o', 'd', 'e', 'l', ':', ' '] from rfl,
    List.cons_append, List.nil_append, List.append_assoc] at hd
  injection hd with h1 _
  exact absurd h1 (by decide)

theorem relation_line_ne_model (a t n : String) : relation_line a t ≠ "Model: " ++ n := by
  intro h
  have hd := congrArg String.data h
  simp only [relation_line, String.data_append,
    show ("  - " : String).data = [' ', ' ', '-', ' '] from rfl,
    show ("Model: " : String).data = ['M', 'o', 'd', 'e', 'l', ':', ' '] from rfl,
    List.cons_append, List.nil_append, List.append_assoc] at hd
  injection hd with h1 _
  exact absurd h1 (by decide)

theorem plain_line_ne_model (a t n : String) : plain_line a t ≠ "Model: " ++ n := by
  intro h
  have hd := congrArg String.data h
  simp only [plain_line, String.data_append,
    show ("  - " : String).data = [' ', ' ', '-', ' '] from rfl,
    show ("Model: " : String).data = ['M', 'o', 'd', 'e', 'l', ':', ' '] from rfl,
    List.cons_append, List.nil_append, List.append_assoc] at hd
  injection hd with h1 _
  exact absurd h1 (by decide)

theorem blank_ne_model (n : String) : "" ≠ "Model: " ++ n := by
  intro h
  have hd := congrArg String.data h
  simp only [String.data_append,
    show ("" : String).data = [] from rfl,
    show ("Model: " : String).data = ['M', 'o', 'd', 'e', 'l', ':', ' '] from rfl,
    List.cons_append] at hd
  exact List.noConfusion hd

/-! ### `modelLineCount` lemmas -/

theorem modelLineCount_append (p q : List String) (n : String) :
    modelLineCount (p ++ q) n = modelLineCount p n + modelLineCount q n := by
  simp [modelLineCount, List.filter_append]

theorem modelLineCount_single_eq (n : String) : modelLineCount ["Model: " ++ n] n = 1 := by
  simp [modelLineCount]

theorem modelLineCount_single_ne {x n : String} (h : x ≠ "Model: " ++ n) :
    modelLineCount [x] n = 0 := by
  simp [modelLineCount, List.filter_cons, beq_iff_eq, h]

/-! ### The visited-set invariant of the schema describer -/

/-- The invariant tying `schema_parts` to `visited_models`: a model header
line occurs in the parts exactly once for each visited model, and never for
an unvisited one. -/
def StInv (st : SchemaState) : Prop :=
  ∀ n, modelLineCount st.parts n = if n ∈ st.visited then 1 else 0

theorem field_step_visited_mono (env : List ModelDef)
    (rec : ModelDef → SchemaState → SchemaState)
    (hrec : ∀ m s x, x ∈ s.visited → x ∈ (rec m s).visited)
    (s : SchemaState) (f : FieldInfo) (x : String) (hx : x ∈ s.visited) :
    x ∈ (field_step env rec s f).visited := by
  cases f with
  | genericFK n => exact hx
  | plain n t => exact hx
  | relation n target =>
    simp only [field_step]
    split
    · exact hrec _ _ _ hx
    · exact hx

theorem foldl_field_step_visited_mono (env : List ModelDef)
    (rec : ModelDef → SchemaState → SchemaState)
    (hrec : ∀ m s x, x ∈ s.visited → x ∈ (rec m s).visited) :
    ∀ (fields : List FieldInfo) (s : SchemaState) (x : String), x ∈ s.visited →
      x ∈ (List.foldl (field_step env rec) s fields).visited := by
  intro fields
  induction fields with
  | nil => intro s x hx; exact hx
  | cons f rest ih =>
    intro s x hx
    rw [List.foldl_cons]
    exact ih _ _ (field_step_visited_mono env rec hrec s f x hx)

theorem add_model_schema_visited_mono (env : List ModelDef) :
    ∀ (fuel : Nat) (model : ModelDef) (st : SchemaState) (x : String),
      x ∈ st.visited → x ∈ (add_model_schema env fuel model st).visited := by
  intro fuel
  induction fuel with
  | zero => intro model st x hx; exact hx
  | succ k ih =>
    intro model st x hx
    simp only [add_model_schema]
    split
    · exact hx
    · exact foldl_field_step_visited_mono env _ (fun m s y hy => ih m s y hy)
        model.fields _ x (List.mem_append_left _ hx)

theorem add_model_schema_mem (env : List ModelDef) (fuel : Nat) (model : ModelDef)
    (st : SchemaState) : model.name ∈ (add_model_schema env (fuel + 1) model st).visited := by
  simp only [add_model_schema]
  split
  · next h => exact h
  · exact foldl_field_step_visited_mono env _
      (fun m s y hy => add_model_schema_visited_mono env fuel m s y hy)
      model.fields _ model.name (List.mem_append_right _ (List.mem_singleton.mpr rfl))

theorem add_model_schema_visited_eq (env : List ModelDef) (fuel : Nat) (model : ModelDef)
    (st : SchemaState) (h : model.name ∈ st.visited) :
    add_model_schema env fuel model st = st := by
  cases fuel with
  | zero => rfl
  | succ k => simp [add_model_schema, h]

theorem field_step_inv (env : List ModelDef)
    (rec : ModelDef → SchemaState → SchemaState)
    (hrec : ∀ m s, StInv s → StInv (rec m s))
    (s : SchemaState) (f : FieldInfo) (hs : StInv s) :
    StInv (field_step env rec s f) := by
  cases f with
  | genericFK n =>
    intro n'
    show modelLineCount (s.parts ++ [generic_fk_line n]) n' = _
    rw [modelLineCount_append, modelLineCount_single_ne (generic_fk_line_ne_model n n')]
    exact hs n'
  | plain n t =>
    intro n'
    show modelLineCount (s.parts ++ [plain_line n t]) n' = _
    rw [modelLineCount_append, modelLineCount_single_ne (plain_line_ne_model n t n')]
    exact hs n'
  | relation n target =>
    have h1 : StInv (⟨s.parts ++ [relation_line n target], s.visited⟩ : SchemaState) := by
      intro n'
      show modelLineCount (s.parts ++ [relation_line n target]) n' = _
      rw [modelLineCount_append, modelLineCount_single_ne (relation_line_ne_model n target n')]
      exact hs n'
    simp only [field_step]
    split
    · exact hrec _ _ h1
    · exact h1

theorem foldl_field_step_inv (env : List ModelDef)
    (rec : ModelDef → SchemaState → SchemaState)
    (hrec : ∀ m s, StInv s → StInv (rec m s)) :
    ∀ (fields : List FieldInfo) (s : SchemaState), StInv s →
      StInv (List.foldl (field_step env rec) s fields) := by
  intro fields
  induction fields with
  | nil => intro s hs; exact hs
  | cons f rest ih =>
    intro s hs
    rw [List.foldl_cons]
    exact ih _ (field_step_inv env rec hrec s f hs)

theorem add_model_schema_inv (env : List ModelDef) :
    ∀ (fuel : Nat) (model : ModelDef) (st : SchemaState), StInv st →
      StInv (add_model_schema env fuel model st) := by
  intro fuel
  induction fuel with
  | zero => intro model st hs; exact hs
  | succ k ih =>
    intro model st hs
    simp only [add_model_schema]
    split
    · exact hs
    · next h =>
      have h1 : StInv (⟨st.parts ++ ["Model: " ++ model.name],
          st.visited ++ [model.name]⟩ : SchemaState) := by
        intro n'
        show modelLineCount (st.parts ++ ["Model: " ++ model.name]) n' =
          if n' ∈ st.visited ++ [model.name] then 1 else 0
        rw [modelLineCount_append]
        by_cases hn : n' = model.name
        · subst hn
          rw [modelLineCount_single_eq, hs model.name, if_neg h, if_pos]
          exact List.mem_append_right _ (List.mem_singleton.mpr rfl)
        · have hne : ("Model: " ++ model.name) ≠ "Model: " ++ n' :=
            fun he => hn (model_line_inj he).symm
          rw [modelLineCount_single_ne hne, hs n']
          have : (n' ∈ st.visited ++ [model.name]) ↔ n' ∈ st.visited := by
            simp [List.mem_append, hn]
          by_cases hv : n' ∈ st.visited
          · rw [if_pos hv, if_pos (this.mpr hv)]
          · rw [if_neg hv, if_neg (fun hmem => hv (this.mp hmem))]
      have h2 := foldl_field_step_inv env _ (fun m s hsv => ih m s hsv) model.fields _ h1
      intro n'
      show modelLineCount
        ((List.foldl (field_step env (add_model_schema env k)) _ model.fields).parts ++ [""])
        n' = _
      rw [modelLineCount_append, modelLineCount_single_ne (blank_ne_model n')]
      exact h2 n'

theorem foldl_models_inv (env : List ModelDef) :
    ∀ (l : List ModelDef) (st : SchemaState), StInv st →
      StInv (List.foldl (fun st m => add_model_schema env (env.length + 1) m st) st l) := by
  intro l
  induction l with
  | nil => intro st hs; exact hs
  | cons m rest ih =>
    intro st hs
    rw [List.foldl_cons]
    exact ih _ (add_model_schema_inv env _ m st hs)

theorem foldl_models_mono (env : List ModelDef) :
    ∀ (l : List ModelDef) (st : SchemaState) (x : String), x ∈ st.visited →
      x ∈ (List.foldl (fun st m => add_model_schema env (env.length + 1) m st) st l).visited := by
  intro l
  induction l with
  | nil => intro st x hx; exact hx
  | cons m rest ih =>
    intro st x hx
    rw [List.foldl_cons]
    exact ih _ x (add_model_schema_visited_mono env _ m st x hx)

theorem stInv_init : StInv (⟨[], []⟩ : SchemaState) := by
  intro n
  simp [modelLineCount]

theorem get_models_schema_parts_inv (env models_list : List ModelDef) :
    StInv ⟨get_models_schema_parts env models_list,
      (models_list.foldl (fun st m => add_model_schema env (env.length + 1) m st)
        ⟨[], []⟩).visited⟩ := by
  have h := foldl_models_inv env models_list ⟨[], []⟩ stInv_init
  intro n
  exact h n

/-- After expanding `m` on top of any invariant-satisfying state and folding
any further models, the header line of `m` occurs exactly once. -/
theorem foldl_after_add_count (env : List ModelDef) (l : List ModelDef) (m : ModelDef)
    (T : SchemaState) (hT : StInv T) :
    modelLineCount
      (List.foldl (fun st m => add_model_schema env (env.length + 1) m st)
        (add_model_schema env (env.length + 1) m T) l).parts m.name = 1 := by
  have hinv := foldl_models_inv env l (add_model_schema env (env.length + 1) m T)
    (add_model_schema_inv env (env.length + 1) m T hT)
  have hmem := foldl_models_mono env l (add_model_schema env (env.length + 1) m T)
    m.name (add_model_schema_mem env env.length m T)
  rw [hinv m.name, if_pos hmem]

/-! ### Plain-field output shape (machinery for C7) -/

/-- Whether a field takes the plain branch of `add_model_schema`
(neither a `GenericForeignKey` nor a concrete relation). -/
def isPlainField : FieldInfo → Bool
  | FieldInfo.plain _ _ => true
  | _ => false

/-- The single line emitted for a field, disregarding the recursive
expansion a relation field additionally triggers. -/
def field_line : FieldInfo → String
  | FieldInfo.genericFK n => generic_fk_line n
  | FieldInfo.relation n target => relation_line n target
  | FieldInfo.plain n t => plain_line n t

/-- The expected Schema Text parts for a relation-free model list: per
model, one `"Model: <name>"` header, one line per field (for a plain field
this is `plain_line name type`, carrying the storage-type tag), and one
blank separator line. -/
def plain_blocks : List ModelDef → List String
  | [] => []
  | m :: rest =>
    (("Model: " ++ m.name) :: (m.fields.map field_line ++ [""])) ++ plain_blocks rest

theorem foldl_field_step_plain (env : List ModelDef)
    (rec : ModelDef → SchemaState → SchemaState) :
    ∀ (fields : List FieldInfo) (s : SchemaState),
      (∀ f ∈ fields, isPlainField f = true) →
      List.foldl (field_step env rec) s fields =
        ⟨s.parts ++ fields.map field_line, s.visited⟩ := by
  intro fields
  induction fields with
  | nil => intro s _; simp
  | cons f rest ih =>
    intro s hp
    cases f with
    | genericFK n => exact absurd (hp _ (List.mem_cons_self _ _)) (by simp [isPlainField])
    | relation n target =>
      exact absurd (hp _ (List.mem_cons_self _ _)) (by simp [isPlainField])
    | plain n t =>
      rw [List.foldl_cons]
      rw [ih _ (fun f hf => hp f (List.mem_cons_of_mem _ hf))]
      simp [field_step, field_line, List.append_assoc]

theorem add_model_schema_plain (env : List ModelDef) (fuel : Nat) (m : ModelDef)
    (st : SchemaState) (hp : ∀ f ∈ m.fields, isPlainField f = true)
    (hnv : m.name ∉ st.visited) :
    add_model_schema env (fuel + 1) m st =
      ⟨st.parts ++ (("Model: " ++ m.name) :: (m.fields.map field_line ++ [""])),
        st.visited ++ [m.name]⟩ := by
  simp only [add_model_schema]
  rw [if_neg hnv]
  rw [foldl_field_step_plain env _ m.fields _ hp]
  simp [List.append_assoc]

theorem foldl_models_plain (env : List ModelDef) :
    ∀ (models : List ModelDef) (st : SchemaState),
      (∀ m ∈ models, ∀ f ∈ m.fields, isPlainField f = true) →
      (∀ m ∈ models, m.name ∉ st.visited) →
      (models.map (fun m => m.name)).Nodup →
      List.foldl (fun st m => add_model_schema env (env.length + 1) m st) st models =
        ⟨st.parts ++ plain_blocks models, st.visited ++ models.map (fun m => m.name)⟩ := by
  intro models
  induction models with
  | nil => intro st _ _ _; simp [plain_blocks]
  | cons m rest ih =>
    intro st hp hv hnd
    rw [List.foldl_cons]
    have hstep := add_model_schema_plain env env.length m st
      (hp m (List.mem_cons_self _ _)) (hv m (List.mem_cons_self _ _))
    rw [hstep]
    have hnd2 : m.name ∉ rest.map (fun m => m.name) ∧
        (rest.map (fun m => m.name)).Nodup := by
      rw [List.map_cons] at hnd
      exact List.nodup_cons.mp hnd
    rw [ih _ (fun m' hm' => hp m' (List.mem_cons_of_mem _ hm'))
      (fun m' hm' => by
        simp only [List.mem_append, List.mem_singleton]
        rintro (h1 | h2)
        · exact hv m' (List.mem_cons_of_mem _ hm') h1
        · exact hnd2.1 (h2 ▸ List.mem_map_of_mem (fun m => m.name) hm'))
      hnd2.2]
    simp [plain_blocks, List.append_assoc]

/-! ### Example models used by concrete witnesses -/

/-- A two-model relation cycle: `A.b → B` and `B.a → A`. -/
def modelA : ModelDef := ⟨"A", [FieldInfo.relation "b" "B"]⟩

/-- Second member of the two-model cycle. -/
def modelB : ModelDef := ⟨"B", [FieldInfo.relation "a" "A"]⟩

/-- A relation-free model with two plain fields. -/
def modelCandidate : ModelDef :=
  ⟨"Candidate", [FieldInfo.plain "id" "AutoField", FieldInfo.plain "score" "IntegerField"]⟩

/-- A second relation-free model with one plain field. -/
def modelStage : ModelDef := ⟨"Stage", [FieldInfo.plain "id" "AutoField"]⟩

/-! ### Claims -/

/-- C1: For every input list of model definitions, the Schema Text produced
by the schema describer describes each model at most once: the header line
`"Model: " ++ n` is emitted at most once for every model name `n`, no
matter how many relations (or relation paths) reach that model, because the
`visited_models` set guards every expansion. -/
theorem claim_C1_model_described_at_most_once
    (env models_list : List ModelDef) (n : String) :
    modelLineCount (get_models_schema_parts env models_list) n ≤ 1 := by
  have h := get_models_schema_parts_inv env models_list n
  rw [h]
  split
  · exact Nat.le_refl 1
  · exact Nat.zero_le 1

/-- C2: For every list of model definitions — in particular one whose
relations form a cycle, such as `modelA`/`modelB` with `A.b → B, B.a → A` —
the schema describer terminates (`add_model_schema` is a total function:
its recursion depth is fuel-bounded, and the supplied fuel `env.length + 1`
exceeds the longest chain of distinct unvisited models), and every model of
the input list appears exactly once in the output: its header line
`"Model: " ++ m.name` is emitted exactly once. -/
theorem claim_C2_cycle_terminates_each_model_once
    (env models_list : List ModelDef) (m : ModelDef) (h : m ∈ models_list) :
    modelLineCount (get_models_schema_parts env models_list) m.name = 1 := by
  obtain ⟨l1, l2, rfl⟩ := List.append_of_mem h
  unfold get_models_schema_parts
  rw [List.foldl_append, List.foldl_cons]
  exact foldl_after_add_count env l2 m _ (foldl_models_inv env l1 _ stInv_init)

/-- Witness for C2 at the concrete two-model cycle `A ↔ B`. -/
theorem claim_C2_witness :
    modelA ∈ [modelA, modelB] ∧
      modelLineCount (get_models_schema_parts [modelA, modelB] [modelA, modelB])
        modelA.name = 1 :=
  ⟨by decide,
    claim_C2_cycle_terminates_each_model_once [modelA, modelB] [modelA, modelB] modelA
      (by decide)⟩

/-- C7: For every list of pairwise-distinct model definitions none of whose
fields is a relation, the Schema Text parts are exactly: one
`"Model: <name>"` header per model, in the input list's order, each
followed by one line per field (`plain_line name type`, carrying the
field's storage-type tag `get_internal_type()`) and then one trailing blank
separator line — i.e. exactly `plain_blocks models_list`.  (Distinctness of
model names is model identity here; a repeated model is covered by C10.) -/
theorem claim_C7_plain_models_output_shape (env models_list : List ModelDef)
    (hp : ∀ m ∈ models_list, ∀ f ∈ m.fields, isPlainField f = true)
    (hnd : (models_list.map (fun m => m.name)).Nodup) :
    get_models_schema_parts env models_list = plain_blocks models_list := by
  unfold get_models_schema_parts
  rw [foldl_models_plain env models_list ⟨[], []⟩ hp (by intro m hm; simp) hnd]
  simp

/-- Witness for C7 at two concrete relation-free models. -/
theorem claim_C7_witness :
    (∀ m ∈ [modelCandidate, modelStage], ∀ f ∈ m.fields, isPlainField f = true) ∧
      (([modelCandidate, modelStage].map (fun m => m.name)).Nodup) ∧
      get_models_schema_parts [] [modelCandidate, modelStage] =
        plain_blocks [modelCandidate, modelStage] :=
  ⟨by decide, by decide,
    claim_C7_plain_models_output_shape [] [modelCandidate, modelStage]
      (by decide) (by decide)⟩

/-- C9: Calling the schema describer on the empty list of model definitions
produces no parts at all (not even a blank separator line), and the joined
Schema Text is the empty string. -/
theorem claim_C9_empty_input_empty_schema (env : List ModelDef) :
    get_models_schema_parts env [] = [] ∧ get_models_schema env [] = "" :=
  ⟨rfl, rfl⟩

/-- C10: The visited-set deduplication also applies to the top-level input
list: a repeated occurrence of the same model definition in the input list
produces no output (removing it leaves the parts unchanged), and the
model's header line is emitted exactly once, at the first occurrence. -/
theorem claim_C10_duplicate_input_described_once
    (env l1 l2 l3 : List ModelDef) (m : ModelDef) :
    get_models_schema_parts env (l1 ++ m :: (l2 ++ m :: l3)) =
        get_models_schema_parts env (l1 ++ m :: (l2 ++ l3)) ∧
      modelLineCount (get_models_schema_parts env (l1 ++ m :: (l2 ++ m :: l3)))
        m.name = 1 := by
  have hmem : m.name ∈ (List.foldl (fun st m => add_model_schema env (env.length + 1) m st)
      (add_model_schema env (env.length + 1) m
        (List.foldl (fun st m => add_model_schema env (env.length + 1) m st) ⟨[], []⟩ l1))
      l2).visited :=
    foldl_models_mono env l2 _ m.name (add_model_schema_mem env env.length m _)
  constructor
  · unfold get_models_schema_parts
    rw [List.foldl_append, List.foldl_cons, List.foldl_append, List.foldl_cons,
      List.foldl_append, List.foldl_cons, List.foldl_append]
    rw [add_model_schema_visited_eq env (env.length + 1) m _ hmem]
  · unfold get_models_schema_parts
    rw [List.foldl_append, List.foldl_cons, List.foldl_append, List.foldl_cons]
    exact foldl_after_add_count env l3 m _
      (foldl_models_inv env l2 _
        (add_model_schema_inv env _ m _ (foldl_models_inv env l1 _ stInv_init)))

/-- C8: Passing a single model definition to the query synthesizer behaves
identically — same result, same errors — to passing the one-element list
containing it, for every choice of the other arguments (endpoint function,
parser, registry, query text, endpoint identifier, custom prompt, decoding
options, validation flag), because line 77-78 of `converter.py` normalizes
the singular case to `[models]` before anything else happens. -/
theorem claim_C8_single_model_equals_singleton_list {Temp MaxTok : Type}
    (chat : String → List (String × String) → Temp → MaxTok → String)
    (ast_parse : String → Option String) (env : List ModelDef) (m : ModelDef)
    (nl_query ollama_model : String) (custom_system_prompt : Option String)
    (temperature : Temp) (max_tokens : MaxTok) (validate_code : Bool) :
    nl_to_orm chat ast_parse env (ModelsArg.single m) nl_query ollama_model
        custom_system_prompt temperature max_tokens validate_code =
      nl_to_orm chat ast_parse env (ModelsArg.many [m]) nl_query ollama_model
        custom_system_prompt temperature max_tokens validate_code := rfl

/-- A concrete stand-in for the external `ast.parse`, used by witnesses:
counts parenthesis balance (`0` open parens at the end, never negative).
The real `ast.parse` also rejects `"Candidate.objects.filter(score__gt=5"`,
with a \x22never closed\x22 diagnostic. -/
def parenBalanceAux : Nat → List Char → Bool
  | n, [] => n == 0
  | n, c :: rest =>
    if c = '(' then parenBalanceAux (n + 1) rest
    else if c = ')' then
      match n with
      | 0 => false
      | k + 1 => parenBalanceAux k rest
    else parenBalanceAux n rest

/-- Toy `ast.parse`: `none` on balanced parentheses, a `SyntaxError`-style
diagnostic otherwise. -/
def paren_check_parse (s : String) : Option String :=
  if parenBalanceAux 0 s.data then none
  else some "\x27(\x27 was never closed (<unknown>, line 1)"

/-- C5: Whenever syntax validation is enabled and the post-extraction text
fails to parse (the abstracted `ast.parse` reports error `e`), `nl_to_orm`
raises the `ValueError` (here: returns `Except.error`), and the error's
message includes both the parser's diagnostic `e` and the full literal
offending text `extract_generated content`. -/
theorem claim_C5_invalid_syntax_error_carries_diagnostic_and_text
    {Temp MaxTok : Type}
    (chat : String → List (String × String) → Temp → MaxTok → String)
    (ast_parse : String → Option String) (env : List ModelDef)
    (models : ModelsArg) (nl_query ollama_model : String)
    (custom_system_prompt : Option String) (temperature : Temp)
    (max_tokens : MaxTok) (m0 : ModelDef) (ms : List ModelDef)
    (content e : String)
    (hn : normalizeModels models = m0 :: ms)
    (hc : chat ollama_model
      [("system", build_system_prompt custom_system_prompt
          (get_models_schema env (normalizeModels models)) nl_query m0.name),
        ("user", nl_query)] temperature max_tokens = content)
    (he : ast_parse (extract_generated content) = some e) :
    nl_to_orm chat ast_parse env models nl_query ollama_model
        custom_system_prompt temperature max_tokens true =
      Except.error ("Invalid query syntax: " ++ e ++ "\nQuery: " ++
        extract_generated content) ∧
    (∃ a b, ("Invalid query syntax: " ++ e ++ "\nQuery: " ++
        extract_generated content) = a ++ e ++ b) ∧
    (∃ a b, ("Invalid query syntax: " ++ e ++ "\nQuery: " ++
        extract_generated content) = a ++ extract_generated content ++ b) := by
  refine ⟨?_, ?_, ?_⟩
  · unfold nl_to_orm
    rw [hn] at hc ⊢
    simp only [hc, he]
    simp
  · exact ⟨"Invalid query syntax: ", "\nQuery: " ++ extract_generated content,
      by simp [String.append_assoc]⟩
  · exact ⟨"Invalid query syntax: " ++ e ++ "\nQuery: ", "",
      by simp [String.append_empty, String.append_assoc]⟩

/-- Witness for C5 at the spec's concrete example: the reply text
`"Candidate.objects.filter(score__gt=5"` with an unbalanced parenthesis. -/
theorem claim_C5_witness :
    paren_check_parse (extract_generated "Candidate.objects.filter(score__gt=5") =
        some "\x27(\x27 was never closed (<unknown>, line 1)" ∧
      nl_to_orm (fun _ _ _ _ => "Candidate.objects.filter(score__gt=5")
          paren_check_parse [] (ModelsArg.single modelCandidate)
          "candidates with score above five" "mistral:instruct" none
          (0 : Nat) (500 : Nat) true =
        Except.error ("Invalid query syntax: " ++
          "\x27(\x27 was never closed (<unknown>, line 1)" ++ "\nQuery: " ++
          extract_generated "Candidate.objects.filter(score__gt=5") :=
  ⟨by decide,
    (claim_C5_invalid_syntax_error_carries_diagnostic_and_text
      (fun _ _ _ _ => "Candidate.objects.filter(score__gt=5") paren_check_parse []
      (ModelsArg.single modelCandidate) "candidates with score above five"
      "mistral:instruct" none (0 : Nat) (500 : Nat) modelCandidate []
      "Candidate.objects.filter(score__gt=5"
      "\x27(\x27 was never closed (<unknown>, line 1)"
      rfl rfl (by decide)).1⟩

/-- C6: `nl_to_orm` returns its validation error if and only if validation
is requested and the extracted text fails to parse; with validation
disabled, the (fence-stripped) reply text is returned unmodified in
`Except.ok`, whether or not it would parse. -/
theorem claim_C6_error_iff_validation_requested_and_parse_fails
    {Temp MaxTok : Type}
    (chat : String → List (String × String) → Temp → MaxTok → String)
    (ast_parse : String → Option String) (env : List ModelDef)
    (models : ModelsArg) (nl_query ollama_model : String)
    (custom_system_prompt : Option String) (temperature : Temp)
    (max_tokens : MaxTok) (validate_code : Bool) (m0 : ModelDef)
    (ms : List ModelDef) (content : String)
    (hn : normalizeModels models = m0 :: ms)
    (hc : chat ollama_model
      [("system", build_system_prompt custom_system_prompt
          (get_models_schema env (normalizeModels models)) nl_query m0.name),
        ("user", nl_query)] temperature max_tokens = content) :
    ((∃ msg, nl_to_orm chat ast_parse env models nl_query ollama_model
          custom_system_prompt temperature max_tokens validate_code =
        Except.error msg) ↔
      (validate_code = true ∧ ∃ e, ast_parse (extract_generated content) = some e)) ∧
    (validate_code = false →
      nl_to_orm chat ast_parse env models nl_query ollama_model
          custom_system_prompt temperature max_tokens validate_code =
        Except.ok (extract_generated content)) := by
  unfold nl_to_orm
  rw [hn] at hc ⊢
  simp only [hc]
  cases validate_code with
  | false => simp
  | true =>
    cases hpe : ast_parse (extract_generated content) with
    | none => simp [hpe]
    | some e => simp [hpe]

/-- C3, counterexample.  The claim says the emitted line for a polymorphic
(generic) relation field mentions both a content-type concept and an
object-identifier concept.  For the model `TaggedItem` with generic field
`tag`, the schema describer emits exactly
`"  - tag: GenericForeignKey (references any model via ContentType, use
tag__field_name for filtering)"`, which mentions `ContentType` but contains
neither `"object_id"` nor `"object"` nor even `"id"`: no object-identifier
concept appears in the line. -/
theorem claim_C3_counterexample :
    get_models_schema_parts [] [⟨"TaggedItem", [FieldInfo.genericFK "tag"]⟩] =
        ["Model: TaggedItem", generic_fk_line "tag", ""] ∧
      strContains (generic_fk_line "tag") "ContentType" = true ∧
      strContains (generic_fk_line "tag") "object_id" = false ∧
      strContains (generic_fk_line "tag") "object" = false ∧
      strContains (generic_fk_line "tag") "id" = false := by
  refine ⟨by decide, by decide, by decide, by decide, by decide⟩

set_option maxRecDepth 40000 in
/-- C3, amended: for every polymorphic (generic) relation field, the
emitted schema line mentions the content-type concept (`ContentType`); the
dual-key lookup convention (`content_type` + `object_id`) is documented in
the *default system prompt* (converter.py line 103), not in the schema
line. -/
theorem claim_C3_amended_generic_line_contenttype_prompt_dual_key
    (n schema start_model : String) :
    (∃ a b, generic_fk_line n = a ++ "ContentType" ++ b) ∧
    (∃ a b, default_system_prompt schema start_model = a ++ "content_type" ++ b) ∧
    (∃ a b, default_system_prompt schema start_model = a ++ "object_id" ++ b) := by
  refine ⟨⟨"  - " ++ n ++ ": GenericForeignKey (references any model via ",
      ", use " ++ n ++ "__field_name for filtering)", ?_⟩, ?_, ?_⟩
  · simp only [generic_fk_line]
    rw [show (": GenericForeignKey (references any model via ContentType, use " : String) =
      ": GenericForeignKey (references any model via " ++ "ContentType" ++ ", use "
      from by decide]
    simp only [String.append_assoc]
  · refine ⟨"You are an expert in Django ORM queries.\nGiven this schema (with relations):\n\n" ++ schema ++ "\n\nConvert the natural language to a valid Django ORM query string.\n- Start with " ++ start_model ++ ".objects\n- Use ALL QuerySet methods as needed: filter/exclude/get/all/order_by/distinct/values/values_list/only/defer/update/delete\n- Advanced lookups: __gt/__lte/__in/__range/__contains/__startswith/__year\n- Complex logic: Import Q (e.g., Q(field__gt=100) & ~Q(other=False))\n- Field ops: Import F (e.g., filter(score__gt=F(\x27attempts\x27)))\n- Subqueries: Import Subquery/Exists/OuterRef/When/Case\n- Aggregates: Import Avg/Sum/Max/Min/Count; use annotate/aggregate\n- Relations: Joins via __, select_related/prefetch_related\n- Other: dates/date_trunc, Func, raw SQL (last resort)\n- Mutations: Use .update/.delete if implied\n- Imports: Prefix with \x27from django.db.models import ...\x27 for Q/F/Subquery/Avg/etc.\n- For GenericForeignKey: Use ", " and object_id fields for filtering (e.g., filter(content_type__model=\x27modelname\x27, object_id__in=[...]))\n- Output ONLY the Python code string, executable as-is.", ?_⟩
    simp only [default_system_prompt]
    rw [show (".objects\n- Use ALL QuerySet methods as needed: filter/exclude/get/all/order_by/distinct/values/values_list/only/defer/update/delete\n- Advanced lookups: __gt/__lte/__in/__range/__contains/__startswith/__year\n- Complex logic: Import Q (e.g., Q(field__gt=100) & ~Q(other=False))\n- Field ops: Import F (e.g., filter(score__gt=F(\x27attempts\x27)))\n- Subqueries: Import Subquery/Exists/OuterRef/When/Case\n- Aggregates: Import Avg/Sum/Max/Min/Count; use annotate/aggregate\n- Relations: Joins via __, select_related/prefetch_related\n- Other: dates/date_trunc, Func, raw SQL (last resort)\n- Mutations: Use .update/.delete if implied\n- Imports: Prefix with \x27from django.db.models import ...\x27 for Q/F/Subquery/Avg/etc.\n- For GenericForeignKey: Use content_type and object_id fields for filtering (e.g., filter(content_type__model=\x27modelname\x27, object_id__in=[...]))\n- Output ONLY the Python code string, executable as-is." : String) = ".objects\n- Use ALL QuerySet methods as needed: filter/exclude/get/all/order_by/distinct/values/values_list/only/defer/update/delete\n- Advanced lookups: __gt/__lte/__in/__range/__contains/__startswith/__year\n- Complex logic: Import Q (e.g., Q(field__gt=100) & ~Q(other=False))\n- Field ops: Import F (e.g., filter(score__gt=F(\x27attempts\x27)))\n- Subqueries: Import Subquery/Exists/OuterRef/When/Case\n- Aggregates: Import Avg/Sum/Max/Min/Count; use annotate/aggregate\n- Relations: Joins via __, select_related/prefetch_related\n- Other: dates/date_trunc, Func, raw SQL (last resort)\n- Mutations: Use .update/.delete if implied\n- Imports: Prefix with \x27from django.db.models import ...\x27 for Q/F/Subquery/Avg/etc.\n- For GenericForeignKey: Use " ++ "content_type" ++ " and object_id fields for filtering (e.g., filter(content_type__model=\x27modelname\x27, object_id__in=[...]))\n- Output ONLY the Python code string, executable as-is." from by decide]
    simp only [String.append_assoc]
  · refine ⟨"You are an expert in Django ORM queries.\nGiven this schema (with relations):\n\n" ++ schema ++ "\n\nConvert the natural language to a valid Django ORM query string.\n- Start with " ++ start_model ++ ".objects\n- Use ALL QuerySet methods as needed: filter/exclude/get/all/order_by/distinct/values/values_list/only/defer/update/delete\n- Advanced lookups: __gt/__lte/__in/__range/__contains/__startswith/__year\n- Complex logic: Import Q (e.g., Q(field__gt=100) & ~Q(other=False))\n- Field ops: Import F (e.g., filter(score__gt=F(\x27attempts\x27)))\n- Subqueries: Import Subquery/Exists/OuterRef/When/Case\n- Aggregates: Import Avg/Sum/Max/Min/Count; use annotate/aggregate\n- Relations: Joins via __, select_related/prefetch_related\n- Other: dates/date_trunc, Func, raw SQL (last resort)\n- Mutations: Use .update/.delete if implied\n- Imports: Prefix with \x27from django.db.models import ...\x27 for Q/F/Subquery/Avg/etc.\n- For GenericForeignKey: Use content_type and ", " fields for filtering (e.g., filter(content_type__model=\x27modelname\x27, object_id__in=[...]))\n- Output ONLY the Python code string, executable as-is.", ?_⟩
    simp only [default_system_prompt]
    rw [show (".objects\n- Use ALL QuerySet methods as needed: filter/exclude/get/all/order_by/distinct/values/values_list/only/defer/update/delete\n- Advanced lookups: __gt/__lte/__in/__range/__contains/__startswith/__year\n- Complex logic: Import Q (e.g., Q(field__gt=100) & ~Q(other=False))\n- Field ops: Import F (e.g., filter(score__gt=F(\x27attempts\x27)))\n- Subqueries: Import Subquery/Exists/OuterRef/When/Case\n- Aggregates: Import Avg/Sum/Max/Min/Count; use annotate/aggregate\n- Relations: Joins via __, select_related/prefetch_related\n- Other: dates/date_trunc, Func, raw SQL (last resort)\n- Mutations: Use .update/.delete if implied\n- Imports: Prefix with \x27from django.db.models import ...\x27 for Q/F/Subquery/Avg/etc.\n- For GenericForeignKey: Use content_type and object_id fields for filtering (e.g., filter(content_type__model=\x27modelname\x27, object_id__in=[...]))\n- Output ONLY the Python code string, executable as-is." : String) = ".objects\n- Use ALL QuerySet methods as needed: filter/exclude/get/all/order_by/distinct/values/values_list/only/defer/update/delete\n- Advanced lookups: __gt/__lte/__in/__range/__contains/__startswith/__year\n- Complex logic: Import Q (e.g., Q(field__gt=100) & ~Q(other=False))\n- Field ops: Import F (e.g., filter(score__gt=F(\x27attempts\x27)))\n- Subqueries: Import Subquery/Exists/OuterRef/When/Case\n- Aggregates: Import Avg/Sum/Max/Min/Count; use annotate/aggregate\n- Relations: Joins via __, select_related/prefetch_related\n- Other: dates/date_trunc, Func, raw SQL (last resort)\n- Mutations: Use .update/.delete if implied\n- Imports: Prefix with \x27from django.db.models import ...\x27 for Q/F/Subquery/Avg/etc.\n- For GenericForeignKey: Use content_type and " ++ "object_id" ++ " fields for filtering (e.g., filter(content_type__model=\x27modelname\x27, object_id__in=[...]))\n- Output ONLY the Python code string, executable as-is." from by decide]
    simp only [String.append_assoc]

/-- Witness for C6: with validation disabled, the unparsable reply is
returned as-is. -/
theorem claim_C6_witness :
    ((∃ msg, nl_to_orm (fun _ _ _ _ => "Candidate.objects.filter(score__gt=5")
          paren_check_parse [] (ModelsArg.single modelCandidate)
          "candidates with score above five" "mistral:instruct" none
          (0 : Nat) (500 : Nat) false =
        Except.error msg) ↔
      (false = true ∧ ∃ e, paren_check_parse
        (extract_generated "Candidate.objects.filter(score__gt=5") = some e)) ∧
    (false = false →
      nl_to_orm (fun _ _ _ _ => "Candidate.objects.filter(score__gt=5")
          paren_check_parse [] (ModelsArg.single modelCandidate)
          "candidates with score above five" "mistral:instruct" none
          (0 : Nat) (500 : Nat) false =
        Except.ok (extract_generated "Candidate.objects.filter(score__gt=5")) :=
  claim_C6_error_iff_validation_requested_and_parse_fails
    (fun _ _ _ _ => "Candidate.objects.filter(score__gt=5") paren_check_parse []
    (ModelsArg.single modelCandidate) "candidates with score above five"
    "mistral:instruct" none (0 : Nat) (500 : Nat) false modelCandidate []
    "Candidate.objects.filter(score__gt=5" rfl rfl

/-! ### Fence-stripping lemmas and C4 -/

theorem pySplitGo_nil (sep : List Char) (k : Nat) (acc : List Char) :
    pySplitGo sep k acc [] = [acc.reverse] := by cases k <;> rfl

theorem pySplitGo_succ (sep : List Char) (k : Nat) (acc : List Char) (c : Char)
    (rest : List Char) : pySplitGo sep (k + 1) acc (c :: rest) = pySplitGo sep k acc rest := rfl

theorem pySplitGo_zero_cons (sep acc : List Char) (c : Char) (rest : List Char) :
    pySplitGo sep 0 acc (c :: rest) =
      if sep.isPrefixOf (c :: rest) then
        acc.reverse :: pySplitGo sep (sep.length - 1) [] rest
      else pySplitGo sep 0 (c :: acc) rest := rfl

theorem isPrefixOf_append_self (l r : List Char) : l.isPrefixOf (l ++ r) = true := by
  induction l with
  | nil => simp [List.isPrefixOf]
  | cons a l ih => simp [List.isPrefixOf, ih]

theorem pySplitGo_skip_len (sep : List Char) :
    ∀ (l r acc : List Char), pySplitGo sep l.length acc (l ++ r) = pySplitGo sep 0 acc r := by
  intro l
  induction l with
  | nil => intro r acc; rfl
  | cons c l ih => intro r acc; exact ih r acc

theorem pySplitGo_sep_head (s0 : Char) (ss r acc : List Char) :
    pySplitGo (s0 :: ss) 0 acc ((s0 :: ss) ++ r) =
      acc.reverse :: pySplitGo (s0 :: ss) 0 [] r := by
  rw [List.cons_append, pySplitGo_zero_cons]
  rw [← List.cons_append, if_pos (isPrefixOf_append_self (s0 :: ss) r)]
  simp only [List.length_cons, Nat.add_sub_cancel]
  rw [pySplitGo_skip_len]

theorem pySplitGo_chunk (s0 : Char) (ss : List Char) :
    ∀ (B r acc : List Char), (∀ x ∈ B, ¬ s0 = x) →
      pySplitGo (s0 :: ss) 0 acc (B ++ r) = pySplitGo (s0 :: ss) 0 (B.reverse ++ acc) r := by
  intro B
  induction B with
  | nil => intro r acc _; simp
  | cons x B ih =>
    intro r acc h
    rw [List.cons_append, pySplitGo_zero_cons]
    rw [if_neg]
    · rw [ih r (x :: acc) (fun y hy => h y (List.mem_cons_of_mem _ hy))]
      simp [List.append_assoc]
    · simp [List.isPrefixOf]
      intro he
      exact absurd he (h x (List.mem_cons_self _ _))

theorem pySplitGo_sep_exact (s0 : Char) (ss acc : List Char) :
    pySplitGo (s0 :: ss) 0 acc (s0 :: ss) = [acc.reverse, []] := by
  have h := pySplitGo_sep_head s0 ss [] acc
  rw [List.append_nil] at h
  rw [h, pySplitGo_nil]
  rfl

theorem go_pysep_on_tick3 (acc : List Char) :
    pySplitGo ['\x60', '\x60', '\x60', 'p', 'y', 't', 'h', 'o', 'n'] 0 acc
        ['\x60', '\x60', '\x60'] =
      [acc.reverse ++ ['\x60', '\x60', '\x60']] := by
  rw [pySplitGo_zero_cons, if_neg (by decide), pySplitGo_zero_cons, if_neg (by decide),
    pySplitGo_zero_cons, if_neg (by decide), pySplitGo_nil]
  simp

theorem pySplit_fenced (body : String) (hb : ∀ c ∈ body.data, c ≠ '\x60') :
    pySplit "```python" ("```python" ++ body ++ "```") =
      ["", ⟨body.data ++ ['\x60', '\x60', '\x60']⟩] := by
  show (pySplitGo ("```python" : String).data 0 []
      ("```python" ++ body ++ "```").data).map (fun l => (⟨l⟩ : String)) = _
  rw [String.data_append, String.data_append, List.append_assoc]
  rw [show ("```python" : String).data =
    ['\x60', '\x60', '\x60', 'p', 'y', 't', 'h', 'o', 'n'] from rfl]
  rw [show ("```" : String).data = ['\x60', '\x60', '\x60'] from rfl]
  rw [pySplitGo_sep_head]
  rw [pySplitGo_chunk '\x60' ['\x60', '\x60', 'p', 'y', 't', 'h', 'o', 'n'] body.data
    ['\x60', '\x60', '\x60'] [] (fun x hx => fun he => (hb x hx) he.symm)]
  rw [List.append_nil, go_pysep_on_tick3]
  simp

theorem pySplit_tick3 (body : String) (hb : ∀ c ∈ body.data, c ≠ '\x60') :
    pySplit "```" (⟨body.data ++ ['\x60', '\x60', '\x60']⟩ : String) = [body, ""] := by
  show (pySplitGo ("```" : String).data 0 []
      ((⟨body.data ++ ['\x60', '\x60', '\x60']⟩ : String)).data).map
      (fun l => (⟨l⟩ : String)) = _
  rw [show ("```" : String).data = ['\x60', '\x60', '\x60'] from rfl]
  rw [show ((⟨body.data ++ ['\x60', '\x60', '\x60']⟩ : String)).data =
    body.data ++ ['\x60', '\x60', '\x60'] from rfl]
  rw [pySplitGo_chunk '\x60' ['\x60', '\x60'] body.data ['\x60', '\x60', '\x60'] []
    (fun x hx => fun he => (hb x hx) he.symm)]
  rw [pySplitGo_sep_exact]
  simp [string_mk_data]

theorem startswith_fence_of_fenced (body : String) :
    pyStartswith ("```python" ++ body ++ "```") "```python" = true := by
  unfold pyStartswith
  rw [String.data_append, String.data_append, List.append_assoc]
  exact isPrefixOf_append_self _ _

theorem extract_generated_fenced (content body : String)
    (h1 : pyStrip content = "```python" ++ body ++ "```")
    (hb : ∀ c ∈ body.data, c ≠ '\x60') :
    extract_generated content = pyStrip body := by
  simp only [extract_generated]
  rw [h1, startswith_fence_of_fenced body]
  rw [if_pos rfl]
  rw [pySplit_fenced body hb]
  rw [show (["", (⟨body.data ++ ['\x60', '\x60', '\x60']⟩ : String)].getD 1 "") =
    (⟨body.data ++ ['\x60', '\x60', '\x60']⟩ : String) from rfl]
  rw [pySplit_tick3 body hb]
  rfl

theorem dropWhile_all_false {p : Char → Bool} :
    ∀ l : List Char, (∀ x ∈ l, p x = false) → l.dropWhile p = l := by
  intro l h
  cases l with
  | nil => rfl
  | cons x xs =>
    rw [List.dropWhile_cons]
    simp [h x (List.mem_cons_self _ _)]

theorem extract_generated_inline (content q : String)
    (h1 : pyStrip content = "\x60" ++ q ++ "\x60")
    (hq : ∀ c ∈ q.data, c ≠ '\x60') :
    extract_generated content = pyStrip q := by
  have hdata : ("\x60" ++ q ++ "\x60").data = '\x60' :: (q.data ++ ['\x60']) := by
    rw [String.data_append, String.data_append]
    simp
  have cond1 : pyStartswith ("\x60" ++ q ++ "\x60") "```python" = false := by
    unfold pyStartswith
    rw [hdata, show ("```python" : String).data =
      ['\x60', '\x60', '\x60', 'p', 'y', 't', 'h', 'o', 'n'] from rfl]
    cases hq2 : q.data with
    | nil => decide
    | cons y ys =>
      have hy : ¬ '\x60' = y := fun he => (hq y (by rw [hq2]; exact List.mem_cons_self _ _)) he.symm
      simp [List.isPrefixOf, hy]
  have cond2 : pyStartswith ("\x60" ++ q ++ "\x60") "\x60" = true := by
    unfold pyStartswith
    rw [hdata]
    simp [List.isPrefixOf]
  have hstrip : stripChars (fun c => c == '\x60') ("\x60" ++ q ++ "\x60") = q := by
    simp only [stripChars]
    rw [hdata]
    rw [show (List.dropWhile (fun c => c == '\x60') ('\x60' :: (q.data ++ ['\x60']))) =
      List.dropWhile (fun c => c == '\x60') (q.data ++ ['\x60']) from by
        rw [List.dropWhile_cons]; simp]
    cases hq2 : q.data with
    | nil =>
      apply string_data_inj
      rw [hq2]
      decide
    | cons y ys =>
      have hy : ((y == '\x60') : Bool) = false :=
        beq_eq_false_iff_ne.mpr (hq y (by rw [hq2]; exact List.mem_cons_self _ _))
      have hmem : ∀ x ∈ ys.reverse ++ [y], ((x == '\x60') : Bool) = false := by
        intro x hx
        apply beq_eq_false_iff_ne.mpr
        apply hq
        rw [hq2]
        rcases List.mem_append.mp hx with hx1 | hx2
        · exact List.mem_cons_of_mem _ (List.mem_reverse.mp hx1)
        · simp at hx2
          rw [hx2]
          exact List.mem_cons_self _ _
      rw [show (List.dropWhile (fun c => c == '\x60') (y :: ys ++ ['\x60'])) =
        y :: ys ++ ['\x60'] from by
          rw [List.cons_append, List.dropWhile_cons]; simp [hy]]
      rw [show ((y :: ys ++ ['\x60']).reverse) = '\x60' :: (ys.reverse ++ [y]) from by simp]
      rw [show (List.dropWhile (fun c => c == '\x60') ('\x60' :: (ys.reverse ++ [y]))) =
        List.dropWhile (fun c => c == '\x60') (ys.reverse ++ [y]) from by
          rw [List.dropWhile_cons]; simp]
      rw [dropWhile_all_false (ys.reverse ++ [y]) hmem]
      rw [show ((ys.reverse ++ [y]).reverse) = y :: ys from by simp]
      apply string_data_inj
      exact hq2.symm
  simp only [extract_generated]
  rw [h1, cond1]
  simp only [Bool.false_eq_true, if_false]
  rw [cond2, if_pos rfl, hstrip]

theorem extract_generated_unfenced (content : String)
    (h : pyStartswith (pyStrip content) "\x60" = false) :
    extract_generated content = pyStrip content := by
  have h2 : pyStartswith (pyStrip content) "```python" = false := by
    unfold pyStartswith at h ⊢
    cases hd : (pyStrip content).data with
    | nil => decide
    | cons x xs =>
      rw [hd] at h
      simp [List.isPrefixOf] at h
      rw [show ("```python" : String).data =
        ['\x60', '\x60', '\x60', 'p', 'y', 't', 'h', 'o', 'n'] from rfl]
      simp [List.isPrefixOf, h]
  simp only [extract_generated]
  rw [h2, h]
  simp

/-- C4, counterexample.  The claim says a reply wrapped in a fenced code
block marker with *a* language tag has the fence markers and the tag
removed.  For the reply `"\x60\x60\x60sql\nSELECT 1\n\x60\x60\x60"` the
code takes the backtick-stripping branch (only the `"\x60\x60\x60python"`
fence is recognized), so the extraction returns `"sql\nSELECT 1"`: the
fences are gone but the language tag `sql` remains, not the inner text
`"SELECT 1"` the claim requires. -/
theorem claim_C4_counterexample :
    extract_generated "```sql\nSELECT 1\n```" = "sql\nSELECT 1" ∧
      extract_generated "```sql\nSELECT 1\n```" ≠ "SELECT 1" := by
  refine ⟨by decide, by decide⟩

/-- C4, amended: if the trimmed reply is wrapped in the fenced code block
marker with the language tag `python` (the only recognized tag), the
extraction returns the inner text, with fence markers and tag removed and
whitespace re-trimmed; otherwise, if the trimmed reply is wrapped in
inline-code backticks, the backticks are stripped; a trimmed reply not
starting with a backtick is returned unchanged — only one fence style is
recognized at a time, and only at the very start of the trimmed reply.
(The no-backtick side conditions rule out stray fence markers inside the
body, where Python's `split`-based stripping truncates.) -/
theorem claim_C4_amended_fence_stripping (content body q : String) :
    ((pyStrip content = "```python" ++ body ++ "```") →
      (∀ c ∈ body.data, c ≠ '\x60') →
      extract_generated content = pyStrip body) ∧
    ((pyStrip content = "\x60" ++ q ++ "\x60") →
      (∀ c ∈ q.data, c ≠ '\x60') →
      extract_generated content = pyStrip q) ∧
    ((pyStartswith (pyStrip content) "\x60" = false) →
      extract_generated content = pyStrip content) :=
  ⟨fun h1 hb => extract_generated_fenced content body h1 hb,
   fun h1 hq => extract_generated_inline content q h1 hq,
   fun h => extract_generated_unfenced content h⟩

/-- Witness for C4 (amended) at a concrete `python`-fenced reply. -/
theorem claim_C4_witness :
    pyStrip "```python\nCandidate.objects.all()\n```" =
        "```python" ++ "\nCandidate.objects.all()\n" ++ "```" ∧
      (∀ c ∈ ("\nCandidate.objects.all()\n" : String).data, c ≠ '\x60') ∧
      extract_generated "```python\nCandidate.objects.all()\n```" =
        pyStrip "\nCandidate.objects.all()\n" :=
  ⟨by decide, by decide,
    (claim_C4_amended_fence_stripping "```python\nCandidate.objects.all()\n```"
      "\nCandidate.objects.all()\n" "").1 (by decide) (by decide)⟩

end NlFilter
